import Mathlib

/-
Shallow embedding of the restplay `client_id` extraction logic
(`request_context.go`: `GetClientID`, `GetClientIDFromBearerToken`) together
with the parts of the Go standard library it relies on
(`net/http.Request.BasicAuth` / `ParseForm`, `net/url.ParseQuery` /
`QueryUnescape`, `mime.ParseMediaType`, `encoding/base64`, `strings`).

Modelling conventions:
- Go strings (byte sequences) are modelled as Lean `String` / `List Char`;
  header values and bodies are treated as character sequences.  Go's
  Unicode-aware `strings.ToLower` / `strings.EqualFold` are modelled by their
  ASCII restriction, which is exact on ASCII input (HTTP header names,
  schemes and media types are ASCII).
- A request body (`io.ReadCloser`) is modelled as `Except String String`:
  reading it from the start either yields the full byte content (`Except.ok`)
  or fails (`Except.error msg`).  Reading consumes an `ok` stream (a drained
  `bytes.Buffer` yields ""), and a failing stream stays failing.
- `http.Request` is modelled with the fields `GetClientID` and
  `Request.ParseForm` read or write (`Method`, `Header`, `URL.RawQuery`,
  `Body`, `Form`, `PostForm`) plus `ContentLength` as a representative
  untouched field.  `url.Values` (a map key -> list of values where only
  `Get`, i.e. the first value per key, is consumed) is modelled as a flat
  association list of (key, value) pairs in insertion order; `Get` returns
  the value of the first pair with the given key, which agrees with Go's
  `Values.Get` for the maps built here.
- `mime.ParseMediaType` is modelled up to its returned media type and
  whether it reports an error; RFC 2231 continuation merging (which only
  affects the parameter map, not the media type or the error) and the
  10 MB `parsePostForm` size limit are not modelled.
-/

namespace Restplay

/-- Go `url.Values`, restricted to what `Get` observes: a flat association
list of (key, value) pairs in insertion order. -/
abbrev Values := List (String × String)

deriving instance DecidableEq for Except

/-- A request body stream: reading it from the start yields either the full
content or a read error. -/
abbrev Body := Except String String

/-- `io.ReadAll` on a body stream: returns the read outcome and the state of
the stream afterwards (a drained buffer reads as "", a failing reader keeps
failing). -/
def readAll : Body → Except String String × Body
  | Except.ok s => (Except.ok s, Except.ok "")
  | Except.error e => (Except.error e, Except.error e)

/-- The fields of `http.Request` that `GetClientID` reads or writes, plus
`contentLength` as a representative field it never touches.  `headers` maps
canonical header keys to their value lists (the code only looks up the
canonical keys "Authorization" and "Content-Type").  `url = some q` models a
non-nil `req.URL` with `RawQuery = q`; `none` models a nil URL. -/
structure Request where
  method : String
  headers : List (String × List String)
  url : Option String
  body : Option Body
  form : Option Values
  postForm : Option Values
  contentLength : Int
deriving DecidableEq, Repr

/-- `http.Header.Get`: first value for the key, or "" if absent. -/
def headerGet (h : List (String × List String)) (key : String) : String :=
  match h.find? (fun p => p.1 == key) with
  | some p =>
    match p.2 with
    | v :: _ => v
    | [] => ""
  | none => ""

/-- `url.Values.Get`: value of the first pair with the key, or "". -/
def valuesGet (vs : Values) (key : String) : String :=
  match vs.find? (fun p => p.1 == key) with
  | some p => p.2
  | none => ""

/-- `strings.HasPrefix` on character lists. -/
def startsWithL : List Char → List Char → Bool
  | _, [] => true
  | [], _ :: _ => false
  | c :: cs, p :: ps => c = p && startsWithL cs ps

/-- `strings.TrimPrefix` on character lists. -/
def trimPfx (s pat : List Char) : List Char :=
  if startsWithL s pat then s.drop pat.length else s

/-- `strings.Cut(s, string(sep))` for a one-character separator: the part
before the first occurrence, the part after it, and whether it occurred. -/
def cutChar : List Char → Char → List Char × List Char × Bool
  | [], _ => ([], [], false)
  | c :: cs, sep =>
    if c = sep then ([], cs, true)
    else
      match cutChar cs sep with
      | (before, after, found) => (c :: before, after, found)

/-- `strings.Split(s, string(sep))` for a one-character separator. -/
def splitOnChar : List Char → Char → List (List Char)
  | [], _ => [[]]
  | c :: cs, sep =>
    if c = sep then [] :: splitOnChar cs sep
    else
      match splitOnChar cs sep with
      | [] => [[c]]
      | h :: t => (c :: h) :: t

/-- ASCII lower-casing of a character (`strings.ToLower` restricted to
ASCII). -/
def asciiLower (c : Char) : Char :=
  if 'A' ≤ c ∧ c ≤ 'Z' then Char.ofNat (c.toNat + 32) else c

/-- `strings.EqualFold` restricted to ASCII case folding. -/
def equalFoldL (a b : List Char) : Bool :=
  a.map asciiLower == b.map asciiLower

/-- Value of a standard base64 alphabet character. -/
def b64Val (c : Char) : Option Nat :=
  if 'A' ≤ c ∧ c ≤ 'Z' then some (c.toNat - 65)
  else if 'a' ≤ c ∧ c ≤ 'z' then some (c.toNat - 97 + 26)
  else if '0' ≤ c ∧ c ≤ '9' then some (c.toNat - 48 + 52)
  else if c = '+' then some 62
  else if c = '/' then some 63
  else none

/-- `base64.StdEncoding.DecodeString` on newline-stripped input: decode
four-character quanta; '=' padding is only legal at the end of the final
quantum.  (Non-strict mode: unused trailing bits are not checked.) -/
def base64Quanta : List Char → Option (List Nat)
  | [] => some []
  | a :: b :: c :: d :: rest =>
    match b64Val a, b64Val b with
    | some va, some vb =>
      if c = '=' then
        if d = '=' ∧ rest = [] then some [va * 4 + vb / 16] else none
      else
        match b64Val c with
        | some vc =>
          if d = '=' then
            if rest = [] then some [va * 4 + vb / 16, (vb % 16) * 16 + vc / 4]
            else none
          else
            match b64Val d with
            | some vd =>
              match base64Quanta rest with
              | some t =>
                some ((va * 4 + vb / 16) :: ((vb % 16) * 16 + vc / 4) ::
                      ((vc % 4) * 64 + vd) :: t)
              | none => none
            | none => none
        | none => none
    | _, _ => none
  | _ => none

/-- `base64.StdEncoding.DecodeString` (the decoder ignores \r and \n). -/
def base64Decode (s : List Char) : Option (List Nat) :=
  base64Quanta (s.filter (fun c => ¬ (c = '\r' ∨ c = '\n')))

/-- `net/http.parseBasicAuth`: case-insensitive "Basic " scheme, base64
payload, split at the first ':'. -/
def parseBasicAuth (auth : String) : Option (String × String) :=
  let cs := auth.toList
  if cs.length < 6 then none
  else if ¬ equalFoldL (cs.take 6) ("Basic ".toList) then none
  else
    match base64Decode (cs.drop 6) with
    | none => none
    | some bytes =>
      match cutChar (bytes.map Char.ofNat) ':' with
      | (u, p, true) => some (String.mk u, String.mk p)
      | (_, _, false) => none

/-- `http.Request.BasicAuth`: empty Authorization header means no
credentials; otherwise parse it as Basic auth. -/
def basicAuthOf (req : Request) : Option (String × String) :=
  if headerGet req.headers "Authorization" = "" then none
  else parseBasicAuth (headerGet req.headers "Authorization")

/-- The error values `GetClientID` can return: the three sentinel errors of
`request_context.go` plus the wrapped body-read and form-parse errors built
with `fmt.Errorf`. -/
inductive FormErr where
  /-- `http: missing form body` (nil body in `parsePostForm`). -/
  | missingFormBody
  /-- an error reported by `mime.ParseMediaType` inside `parsePostForm`. -/
  | mediaTypeError
  /-- a body read error surfaced through `parsePostForm`. -/
  | readError (msg : String)
  /-- `net/url`: "invalid semicolon separator in query". -/
  | invalidSemicolon
  /-- `net/url.EscapeError` (bad percent escape), carrying the offending
  snippet. -/
  | escapeError (s : String)
deriving DecidableEq, Repr

inductive GoErr where
  /-- `NilRequestErr`. -/
  | nilRequest
  /-- `InvalidBearerTokenErr`. -/
  | invalidBearerToken
  /-- `MissingClientIDErr`. -/
  | missingClientID
  /-- `restplay: failed to read request body: %w`. -/
  | readBody (msg : String)
  /-- `restplay: failed to parse request form from body: %w`. -/
  | parseFormBody (e : FormErr)
  /-- `restplay: failed to parse request form from URL: %w`. -/
  | parseFormURL (e : FormErr)
deriving DecidableEq, Repr

/-- `net/url.ishex`. -/
def isHexDig (c : Char) : Bool :=
  ('0' ≤ c ∧ c ≤ '9') ∨ ('a' ≤ c ∧ c ≤ 'f') ∨ ('A' ≤ c ∧ c ≤ 'F')

/-- `net/url.unhex`. -/
def hexVal (c : Char) : Nat :=
  if '0' ≤ c ∧ c ≤ '9' then c.toNat - 48
  else if 'a' ≤ c ∧ c ≤ 'f' then c.toNat - 97 + 10
  else c.toNat - 65 + 10

/-- `url.QueryUnescape`: '%XX' percent escapes (two hex digits required, the
error carries the offending snippet of at most three characters), '+'
becomes ' '. -/
def queryUnescape : List Char → Except (List Char) (List Char)
  | [] => Except.ok []
  | '%' :: rest =>
    match rest with
    | a :: b :: r =>
      if isHexDig a ∧ isHexDig b then
        match queryUnescape r with
        | Except.ok t => Except.ok (Char.ofNat (hexVal a * 16 + hexVal b) :: t)
        | Except.error e => Except.error e
      else Except.error ('%' :: rest.take 2)
    | _ => Except.error ('%' :: rest.take 2)
  | '+' :: r =>
    match queryUnescape r with
    | Except.ok t => Except.ok (' ' :: t)
    | Except.error e => Except.error e
  | c :: r =>
    match queryUnescape r with
    | Except.ok t => Except.ok (c :: t)
    | Except.error e => Except.error e

/-- One chunk of `net/url.parseQuery`'s loop body: a '&'-separated chunk is
rejected if it contains ';' (the error overwrites any previous one), skipped
if empty or if unescaping its key or value fails (recording the first such
error), and appended to the values otherwise. -/
def parseQueryChunk (m : Values) (err : Option FormErr) (key : List Char) :
    Values × Option FormErr :=
  if key.contains ';' then (m, some FormErr.invalidSemicolon)
  else if key = [] then (m, err)
  else
    match cutChar key '=' with
    | (k, v, _) =>
      match queryUnescape k with
      | Except.error e =>
        (m, if err = none then some (FormErr.escapeError (String.mk e)) else err)
      | Except.ok k1 =>
        match queryUnescape v with
        | Except.error e =>
          (m, if err = none then some (FormErr.escapeError (String.mk e)) else err)
        | Except.ok v1 => (m ++ [(String.mk k1, String.mk v1)], err)

/-- The `strings.Cut`-by-'&' loop of `net/url.parseQuery`, as a fold over
the '&'-separated chunks (for a non-empty separator the repeated `Cut` loop
visits exactly the chunks of `strings.Split`). -/
def parseQueryChunks (m : Values) (err : Option FormErr) :
    List (List Char) → Values × Option FormErr
  | [] => (m, err)
  | key :: rest =>
    match parseQueryChunk m err key with
    | (m1, err1) => parseQueryChunks m1 err1 rest

/-- `net/url.ParseQuery`: the collected values (also on error: parsing
continues past bad pairs) together with the first error. -/
def parseQuery (s : String) : Values × Option FormErr :=
  parseQueryChunks [] none (splitOnChar s.toList '&')

/-- `mime` tspecials. -/
def isTSpecial (c : Char) : Bool :=
  c ∈ ['(', ')', '<', '>', '@', ',', ';', ':', '\\', '"', '/', '[', ']', '?', '=']

/-- `mime.isTokenChar`: printable US-ASCII except SPACE and tspecials. -/
def isTokenChar (c : Char) : Bool :=
  c.toNat > 0x20 && c.toNat < 0x7f && ¬ isTSpecial c

/-- `unicode.IsSpace`, restricted to Latin-1 (the space characters that can
appear in a header value). -/
def goIsSpace (c : Char) : Bool :=
  c = ' ' ∨ c = '\t' ∨ c = '\n' ∨ c = '\x0b' ∨ c = '\x0c' ∨ c = '\r' ∨
  c.toNat = 0x85 ∨ c.toNat = 0xA0

/-- `strings.TrimLeftFunc(v, unicode.IsSpace)`. -/
def trimLeftSpace (v : List Char) : List Char := v.dropWhile goIsSpace

/-- `strings.TrimSpace`. -/
def trimSpace (v : List Char) : List Char :=
  ((v.dropWhile goIsSpace).reverse.dropWhile goIsSpace).reverse

/-- `mime.consumeToken`: the longest prefix of token characters and the
rest. -/
def consumeToken (v : List Char) : List Char × List Char :=
  (v.takeWhile isTokenChar, v.dropWhile isTokenChar)

/-- The quoted-string scan of `mime.consumeValue`: content accumulated so
far (reversed) and the input after the opening quote; `none` when the
closing quote is never found or a bare CR/LF appears.  A backslash escapes a
following tspecial; any other backslash is kept literally. -/
def consumeQuoted (acc : List Char) : List Char → Option (List Char × List Char)
  | [] => none
  | '"' :: r => some (acc.reverse, r)
  | ['\\'] => none
  | '\\' :: r@(c2 :: r2) =>
    if isTSpecial c2 then consumeQuoted (c2 :: acc) r2
    else consumeQuoted ('\\' :: acc) r
  | c :: r =>
    if c = '\r' ∨ c = '\n' then none
    else consumeQuoted (c :: acc) r

/-- `mime.consumeValue`: a token, or a quoted string.  Failure is signalled
Go-style by returning an empty value together with the unchanged input. -/
def consumeValue (v : List Char) : List Char × List Char :=
  match v with
  | [] => ([], [])
  | '"' :: r =>
    match consumeQuoted [] r with
    | some pr => pr
    | none => ([], v)
  | _ => consumeToken v

/-- `mime.consumeMediaParam`: ";" token "=" value, with optional space;
failure returns an empty parameter name and the unchanged input. -/
def consumeMediaParam (v : List Char) : List Char × List Char × List Char :=
  match trimLeftSpace v with
  | ';' :: r1 =>
    let r2 := trimLeftSpace r1
    let t := consumeToken r2
    let param := t.1.map asciiLower
    if param = [] then ([], [], v)
    else
      match trimLeftSpace t.2 with
      | '=' :: r5 =>
        let r6 := trimLeftSpace r5
        let w := consumeValue r6
        if w.1 = [] ∧ w.2 = r6 then ([], [], v)
        else (param, w.1, w.2)
      | _ => ([], [], v)
  | _ => ([], [], v)

/-- `mime.checkMediaTypeDisposition`: a token, or token "/" token. -/
def checkMediaTypeDisposition (s : List Char) : Bool :=
  let t := consumeToken s
  if t.1.isEmpty then false
  else
    match t.2 with
    | [] => true
    | '/' :: r2 =>
      let t2 := consumeToken r2
      !(t2.1.isEmpty) && t2.2.isEmpty
    | _ => false

/-- Outcome of `mime.ParseMediaType`'s parameter loop: clean, a parameter
syntax error (`ErrInvalidMediaParameter`, which keeps the media type), or a
duplicate parameter name (which nulls the media type). -/
inductive MTRes where
  | ok
  | invalid
  | dup
deriving DecidableEq

/-- Lookup in a parameter map (association list, first entry wins). -/
def pmFind (m : List (List Char × List Char)) (k : List Char) : Option (List Char) :=
  (m.find? (fun p => p.1 == k)).map (fun p => p.2)

/-- The continuation map for a base name (`continuation[baseName]`). -/
def contFind (cont : List (List Char × List (List Char × List Char)))
    (base : List Char) : List (List Char × List Char) :=
  ((cont.find? (fun p => p.1 == base)).map (fun p => p.2)).getD []

/-- Record `continuation[baseName][key] = value`. -/
def contInsert (cont : List (List Char × List (List Char × List Char)))
    (base k v : List Char) : List (List Char × List (List Char × List Char)) :=
  (base, (k, v) :: contFind cont base) :: cont

/-- The parameter loop of `mime.ParseMediaType`.  Keys containing '*' are
tracked per RFC 2231 base name (only to detect duplicates; the merged
parameter map is not observed by this code base).  Each successful iteration
consumes at least the leading ';', so `fuel := v.length + 1` never runs
out; the fuel-exhausted branch is unreachable. -/
def parseMediaTypeLoop (params : List (List Char × List Char))
    (cont : List (List Char × List (List Char × List Char))) :
    Nat → List Char → MTRes
  | 0, _ => MTRes.invalid
  | _ + 1, [] => MTRes.ok
  | fuel + 1, v@(_ :: _) =>
    let v1 := trimLeftSpace v
    if v1 = [] then MTRes.ok
    else
      match consumeMediaParam v1 with
      | (key, value, rest) =>
        if key = [] then
          if trimSpace v1 = [';'] then MTRes.ok else MTRes.invalid
        else
          match cutChar key '*' with
          | (base, _, true) =>
            match pmFind (contFind cont base) key with
            | some old =>
              if old ≠ value then MTRes.dup
              else parseMediaTypeLoop params (contInsert cont base key value) fuel rest
            | none => parseMediaTypeLoop params (contInsert cont base key value) fuel rest
          | (_, _, false) =>
            match pmFind params key with
            | some old =>
              if old ≠ value then MTRes.dup
              else parseMediaTypeLoop ((key, value) :: params) cont fuel rest
            | none => parseMediaTypeLoop ((key, value) :: params) cont fuel rest

/-- `mime.ParseMediaType`, up to its returned media type and whether it
succeeds: the part before the first ';' is lower-cased and trimmed and must
be a valid `type "/" subtype` token pair (else ("", false)); a parameter
syntax error keeps the media type but reports failure; duplicate parameter
names null the media type.  (The parameter map itself is dropped by all
callers in this code base.) -/
def parseMediaType (v : String) : String × Bool :=
  let cs := v.toList
  let base := (cutChar cs ';').1
  let mt := trimSpace (base.map asciiLower)
  if ¬ checkMediaTypeDisposition mt then ("", false)
  else
    let rest := cs.drop base.length
    match parseMediaTypeLoop [] [] (rest.length + 1) rest with
    | MTRes.ok => (String.mk mt, true)
    | MTRes.invalid => (String.mk mt, false)
    | MTRes.dup => ("", false)

/-- `request_context.go`: `formContentType`. -/
def formContentType : String := "application/x-www-form-urlencoded"

/-- `request_context.go`: `clientIDKey`. -/
def clientIDKey : String := "client_id"

/-- `request_context.go`: `contentTypeHeaderKey`. -/
def contentTypeHeaderKey : String := "Content-Type"

/-- `net/http.parsePostForm`: with a nil body fail with "missing form
body"; otherwise parse the Content-Type (default
"application/octet-stream").  For the urlencoded type, read the body (a
read failure is recorded but parsing continues on the bytes obtained, i.e.
none) and parse it with `url.ParseQuery`; for any other type the values
stay nil.  Returns the values, the first error, and the request with its
body in the post-read state. -/
def parsePostForm (req : Request) : Option Values × Option FormErr × Request :=
  match req.body with
  | none => (none, some FormErr.missingFormBody, req)
  | some b =>
    let ct0 := headerGet req.headers contentTypeHeaderKey
    let ct1 := if ct0 = "" then "application/octet-stream" else ct0
    let mt := parseMediaType ct1
    let err0 : Option FormErr := if mt.2 then none else some FormErr.mediaTypeError
    if mt.1 = formContentType then
      match readAll b with
      | (Except.error e, b1) =>
        (some [], if err0 = none then some (FormErr.readError e) else err0,
         { req with body := some b1 })
      | (Except.ok bs, b1) =>
        match parseQuery bs with
        | (vs, qe) =>
          (some vs, if err0 = none then qe else err0, { req with body := some b1 })
    else (none, err0, req)

/-- The `PostForm` paragraph of `http.Request.ParseForm`: if `PostForm` is
nil, fill it from the body for POST/PUT/PATCH (an empty map when
`parsePostForm` returned nil values) and with an empty map for any other
method. -/
def parseFormStep1 (req : Request) : Request × Option FormErr :=
  if req.postForm = none then
    if req.method = "POST" ∨ req.method = "PUT" ∨ req.method = "PATCH" then
      match parsePostForm req with
      | (vs, e, req1) => ({ req1 with postForm := some (vs.getD []) }, e)
    else ({ req with postForm := some ([] : Values) }, none)
  else (req, none)

/-- `http.Request.ParseForm`: populate `PostForm` (from the body, for
POST/PUT/PATCH) and `Form` (`PostForm` values followed by the URL query
values; a nil URL contributes an empty map), returning the first error
while still caching whatever was parsed. -/
def Request.parseForm (req : Request) : Request × Option FormErr :=
  let s := parseFormStep1 req
  if s.1.form = none then
    let nv : Values × Option FormErr :=
      match s.1.url with
      | some rawQuery => parseQuery rawQuery
      | none => ([], none)
    ({ s.1 with form := some ((s.1.postForm.getD []) ++ nv.1) },
     if s.2 = none then nv.2 else s.2)
  else s

/-- `request_context.go`: `GetClientIDFromBearerToken` — split on '.', demand
exactly two fields with a non-empty first field. -/
def GetClientIDFromBearerToken (token : String) : String × Option GoErr :=
  match splitOnChar token.toList '.' with
  | [clientID, _] =>
    if clientID = [] then ("", some GoErr.invalidBearerToken)
    else (String.mk clientID, none)
  | _ => ("", some GoErr.invalidBearerToken)

/-- The `req.Form.Get(clientIDKey)` lookup shared by both switch branches of
`GetClientID`: a non-empty value is returned, otherwise control reaches the
final `MissingClientIDErr` return. -/
def formGetStep (req : Request) : String × Option Request × Option GoErr :=
  if valuesGet (req.form.getD []) clientIDKey ≠ "" then
    (valuesGet (req.form.getD []) clientIDKey, some req, none)
  else ("", some req, some GoErr.missingClientID)

/-- The `case http.MethodPost, http.MethodPatch, http.MethodPut` branch of
`GetClientID`: for the urlencoded media type with a non-nil body and a not
yet parsed form, read the whole body, reset it, parse the form (resetting
the body again around `ParseForm`), and look up `client_id`; a body read
error returns without restoring the stream. -/
def getClientIDFormBranch (req : Request) : String × Option Request × Option GoErr :=
  if (parseMediaType (headerGet req.headers contentTypeHeaderKey)).1 = formContentType then
    match req.body with
    | some b =>
      if req.form = none then
        match readAll b with
        | (Except.error e, b1) =>
          ("", some { req with body := some b1 }, some (GoErr.readBody e))
        | (Except.ok bodyBytes, _) =>
          match Request.parseForm { req with body := some (Except.ok bodyBytes) } with
          | (req2, some e) =>
            ("", some { req2 with body := some (Except.ok bodyBytes) },
             some (GoErr.parseFormBody e))
          | (req2, none) => formGetStep { req2 with body := some (Except.ok bodyBytes) }
      else formGetStep req
    | none => ("", some req, some GoErr.missingClientID)
  else ("", some req, some GoErr.missingClientID)

/-- The `default` branch of `GetClientID`: parse the form from the URL (the
body is not touched for these methods) and look up `client_id`. -/
def getClientIDDefaultBranch (req : Request) : String × Option Request × Option GoErr :=
  if req.form = none then
    match Request.parseForm req with
    | (req1, some e) => ("", some req1, some (GoErr.parseFormURL e))
    | (req1, none) => formGetStep req1
  else formGetStep req

/-- `GetClientID` after the Basic-Auth attempt: Bearer token (returning the
parser's result directly), then the method switch. -/
def getClientIDNonBasic (req : Request) : String × Option Request × Option GoErr :=
  if startsWithL (headerGet req.headers "Authorization").toList ("Bearer ".toList) then
    match GetClientIDFromBearerToken
        (String.mk (trimPfx (headerGet req.headers "Authorization").toList ("Bearer ".toList))) with
    | (clientID, err) => (clientID, some req, err)
  else if req.method = "POST" ∨ req.method = "PATCH" ∨ req.method = "PUT" then
    getClientIDFormBranch req
  else getClientIDDefaultBranch req

/-- `request_context.go`: `GetClientID` — nil check, Basic-Auth (non-empty
username wins), Bearer token, then the form/query lookup. -/
def GetClientID (req? : Option Request) : String × Option Request × Option GoErr :=
  match req? with
  | none => ("", none, some GoErr.nilRequest)
  | some req =>
    match basicAuthOf req with
    | some up => if up.1 ≠ "" then (up.1, some req, none) else getClientIDNonBasic req
    | none => getClientIDNonBasic req

/-- The four request fields `GetClientID` may legitimately leave unchanged
from the caller's point of view, bundled for the frame theorems. -/
def frameEq (a b : Request) : Prop :=
  b.method = a.method ∧ b.headers = a.headers ∧ b.url = a.url ∧
  b.contentLength = a.contentLength

/-- `frameEq` lifted to the optional request returned by `GetClientID`. -/
def frameMap (a : Request) (r? : Option Request) : Prop :=
  r?.map Request.method = some a.method ∧
  r?.map Request.headers = some a.headers ∧
  r?.map Request.url = some a.url ∧
  r?.map Request.contentLength = some a.contentLength

/-- A freshly built POST form request whose body fails to parse as a form
("%zz" is a bad percent escape): exercises the error path of the body
restoration contract. -/
def postBadFormReq : Request :=
  { method := "POST"
    headers := [("Content-Type", ["application/x-www-form-urlencoded"])]
    url := none
    body := some (Except.ok "a=%zz")
    form := none
    postForm := none
    contentLength := 5 }

/-- A POST form request whose body stream fails on read. -/
def postReadErrReq : Request :=
  { method := "POST"
    headers := [("Content-Type", ["application/x-www-form-urlencoded"])]
    url := some ""
    body := some (Except.error "boom")
    form := none
    postForm := none
    contentLength := 4 }

/-- A request carrying Basic-Auth credentials ("user"/"pass") together with
a form body and a query string that both carry a different client_id. -/
def basicAuthReq : Request :=
  { method := "POST"
    headers := [("Authorization", ["Basic dXNlcjpwYXNz"]),
                ("Content-Type", ["application/x-www-form-urlencoded"])]
    url := some "client_id=fromquery"
    body := some (Except.ok "client_id=frombody")
    form := none
    postForm := none
    contentLength := 17 }

/-- A request with a malformed Bearer token (no '.') and a valid client_id
in both the form body and the query string. -/
def badBearerReq : Request :=
  { method := "POST"
    headers := [("Authorization", ["Bearer notokendots"]),
                ("Content-Type", ["application/x-www-form-urlencoded"])]
    url := some "client_id=fromquery"
    body := some (Except.ok "client_id=frombody")
    form := none
    postForm := none
    contentLength := 17 }

/-- A POST whose Content-Type is the urlencoded media type in upper case
(not byte-identical to `formContentType`) and whose client_id occurs only
in the body. -/
def upperCaseCTReq : Request :=
  { method := "POST"
    headers := [("Content-Type", ["APPLICATION/X-WWW-FORM-URLENCODED"])]
    url := some ""
    body := some (Except.ok "client_id=frombody")
    form := none
    postForm := none
    contentLength := 18 }

/-- A POST with a plain-text Content-Type: the form branch must not consult
the body or the query string. -/
def plainTextPostReq : Request :=
  { method := "POST"
    headers := [("Content-Type", ["text/plain"])]
    url := some "client_id=fromquery"
    body := some (Except.ok "client_id=frombody")
    form := none
    postForm := none
    contentLength := 18 }

/-- A plain GET with the client_id in the query string. -/
def getQueryReq : Request :=
  { method := "GET"
    headers := []
    url := some "client_id=robbie"
    body := none
    form := none
    postForm := none
    contentLength := 0 }

/-- An empty GET: no auth, no body, no query. -/
def emptyGetReq : Request :=
  { method := "GET"
    headers := []
    url := some ""
    body := none
    form := none
    postForm := none
    contentLength := 0 }

/-- A PUT form request whose body has no client_id while the query string
does. -/
def putMergeReq : Request :=
  { method := "PUT"
    headers := [("Content-Type", ["application/x-www-form-urlencoded"])]
    url := some "client_id=fromquery"
    body := some (Except.ok "other=1")
    form := none
    postForm := none
    contentLength := 7 }

/-- The values the URL query string contributes to `Form` (an empty map for
a nil URL), used to state the form/query merge behavior. -/
def urlVals (req : Request) : Values :=
  match req.url with
  | some q => (parseQuery q).1
  | none => []

theorem find?_append_of_none {α : Type} (p : α → Bool) (l1 l2 : List α)
    (h : l1.find? p = none) : (l1 ++ l2).find? p = l2.find? p := by
  induction l1 with
  | nil => rfl
  | cons a t ih =>
    rcases hp : p a with _ | _
    · rw [List.find?_cons_of_neg _ (by simp [hp])] at h
      rw [List.cons_append, List.find?_cons_of_neg _ (by simp [hp])]
      exact ih h
    · rw [List.find?_cons_of_pos _ hp] at h
      simp at h

theorem valuesGet_append_of_none (vs ws : Values) (key : String)
    (h : vs.find? (fun p => p.1 == key) = none) :
    valuesGet (vs ++ ws) key = valuesGet ws key := by
  unfold valuesGet
  rw [find?_append_of_none _ _ _ h]

theorem basicAuthOf_none_of_no_auth (req : Request)
    (h : headerGet req.headers "Authorization" = "") : basicAuthOf req = none := by
  unfold basicAuthOf
  rw [h]
  rfl

theorem getClientID_some_eq (req : Request) :
    GetClientID (some req) =
      (match basicAuthOf req with
       | some up => if up.1 ≠ "" then (up.1, some req, none) else getClientIDNonBasic req
       | none => getClientIDNonBasic req) := rfl

theorem getClientID_eq_nonBasic (req : Request)
    (hnb : ∀ u p, basicAuthOf req = some (u, p) → u = "") :
    GetClientID (some req) = getClientIDNonBasic req := by
  rw [getClientID_some_eq]
  cases hba : basicAuthOf req with
  | none => rfl
  | some up =>
    have hu : up.1 = "" := hnb up.1 up.2 (by rw [Prod.mk.eta]; exact hba)
    simp [hu]

theorem formGetStep_req (req : Request) : (formGetStep req).2.1 = some req := by
  unfold formGetStep
  split <;> rfl

theorem parsePostForm_shape (req : Request) :
    ∃ x, (parsePostForm req).2.2 = { req with body := x } := by
  simp only [parsePostForm]
  repeat' split
  all_goals exact ⟨_, rfl⟩

theorem parseFormStep1_shape (req : Request) :
    ∃ x y, (parseFormStep1 req).1 = { req with body := x, postForm := y } := by
  obtain ⟨x0, hx0⟩ := parsePostForm_shape req
  simp only [parseFormStep1]
  repeat' split
  · rw [hx0]
    exact ⟨_, _, rfl⟩
  · exact ⟨req.body, some [], rfl⟩
  · exact ⟨req.body, req.postForm, rfl⟩

theorem parseForm_shape (req : Request) :
    ∃ x y z, (Request.parseForm req).1 = { req with body := x, postForm := y, form := z } := by
  obtain ⟨x, y, hxy⟩ := parseFormStep1_shape req
  simp only [Request.parseForm]
  split
  · exact ⟨x, y, _, by rw [hxy]⟩
  · exact ⟨x, y, req.form, by rw [hxy]⟩

theorem formBranch_frame (req : Request) : frameMap req (getClientIDFormBranch req).2.1 := by
  simp only [getClientIDFormBranch]
  split
  · split
    · split
      · split
        · simp [frameMap]
        · split
          · next req2 e heq =>
            obtain ⟨x, y, z, hs⟩ := parseForm_shape { req with body := some (Except.ok _) }
            rw [heq] at hs
            simp only at hs
            subst hs
            simp [frameMap]
          · next req2 heq =>
            rw [formGetStep_req]
            obtain ⟨x, y, z, hs⟩ := parseForm_shape { req with body := some (Except.ok _) }
            rw [heq] at hs
            simp only at hs
            subst hs
            simp [frameMap]
      · rw [formGetStep_req]
        simp [frameMap]
    · simp [frameMap]
  · simp [frameMap]

theorem defaultBranch_frame (req : Request) : frameMap req (getClientIDDefaultBranch req).2.1 := by
  simp only [getClientIDDefaultBranch]
  split
  · split
    · next req1 e heq =>
      obtain ⟨x, y, z, hs⟩ := parseForm_shape req
      rw [heq] at hs
      simp only at hs
      subst hs
      simp [frameMap]
    · next req1 heq =>
      rw [formGetStep_req]
      obtain ⟨x, y, z, hs⟩ := parseForm_shape req
      rw [heq] at hs
      simp only at hs
      subst hs
      simp [frameMap]
  · rw [formGetStep_req]
    simp [frameMap]

theorem nonBasic_frame (req : Request) : frameMap req (getClientIDNonBasic req).2.1 := by
  simp only [getClientIDNonBasic]
  split
  · simp [frameMap]
  · split
    · exact formBranch_frame req
    · exact defaultBranch_frame req

theorem formGetStep_dichotomy (req : Request) :
    ((formGetStep req).1 ≠ "" ∧ (formGetStep req).2.2 = none) ∨
    ((formGetStep req).1 = "" ∧ (formGetStep req).2.2 ≠ none) := by
  unfold formGetStep
  split
  · next h => exact Or.inl ⟨h, rfl⟩
  · exact Or.inr ⟨rfl, by simp⟩

theorem bearerToken_dichotomy (t : String) :
    ((GetClientIDFromBearerToken t).1 ≠ "" ∧ (GetClientIDFromBearerToken t).2 = none) ∨
    ((GetClientIDFromBearerToken t).1 = "" ∧ (GetClientIDFromBearerToken t).2 ≠ none) := by
  unfold GetClientIDFromBearerToken
  split
  · split
    · exact Or.inr ⟨rfl, by simp⟩
    · next h =>
      refine Or.inl ⟨fun hc => h ?_, rfl⟩
      have hd := congrArg String.data hc
      simpa using hd
  · exact Or.inr ⟨rfl, by simp⟩

theorem formBranch_dichotomy (req : Request) :
    ((getClientIDFormBranch req).1 ≠ "" ∧ (getClientIDFormBranch req).2.2 = none) ∨
    ((getClientIDFormBranch req).1 = "" ∧ (getClientIDFormBranch req).2.2 ≠ none) := by
  simp only [getClientIDFormBranch]
  repeat' split
  all_goals first
    | exact formGetStep_dichotomy _
    | exact Or.inr ⟨rfl, by simp⟩

theorem defaultBranch_dichotomy (req : Request) :
    ((getClientIDDefaultBranch req).1 ≠ "" ∧ (getClientIDDefaultBranch req).2.2 = none) ∨
    ((getClientIDDefaultBranch req).1 = "" ∧ (getClientIDDefaultBranch req).2.2 ≠ none) := by
  simp only [getClientIDDefaultBranch]
  repeat' split
  all_goals first
    | exact formGetStep_dichotomy _
    | exact Or.inr ⟨rfl, by simp⟩

theorem nonBasic_dichotomy (req : Request) :
    ((getClientIDNonBasic req).1 ≠ "" ∧ (getClientIDNonBasic req).2.2 = none) ∨
    ((getClientIDNonBasic req).1 = "" ∧ (getClientIDNonBasic req).2.2 ≠ none) := by
  simp only [getClientIDNonBasic]
  split
  · have hd := bearerToken_dichotomy
      (String.mk (trimPfx (headerGet req.headers "Authorization").toList ("Bearer ".toList)))
    rcases hbt : GetClientIDFromBearerToken
        (String.mk (trimPfx (headerGet req.headers "Authorization").toList ("Bearer ".toList))) with
      ⟨cid, err⟩
    rw [hbt] at hd
    simpa using hd
  · split
    · exact formBranch_dichotomy req
    · exact defaultBranch_dichotomy req

/-- C2: for every non-nil request whose Authorization header parses as
Basic-Auth credentials with a non-empty username, `GetClientID` returns that
username with a nil error, regardless of any form body, query-string
client_id, or anything else in the request. -/
theorem getClientID_basicAuth_wins (req : Request) (u p : String)
    (hb : basicAuthOf req = some (u, p)) (hu : u ≠ "") :
    GetClientID (some req) = (u, some req, none) := by
  rw [getClientID_some_eq, hb]
  simp [hu]

/-- Witness for C2: Basic-Auth "user:pass" wins although the form body and
the query string both carry a different client_id. -/
theorem getClientID_basicAuth_wins_witness :
    GetClientID (some basicAuthReq) = ("user", some basicAuthReq, none) :=
  getClientID_basicAuth_wins basicAuthReq "user" "pass" (by rfl) (by decide)

/-- C3: for every non-nil request without usable Basic-Auth credentials
whose Authorization header starts with "Bearer ", `GetClientID` returns
exactly the Bearer-token parser's result on the remainder of the header —
success or failure, it never falls through to the form or query lookup. -/
theorem getClientID_bearer_short_circuit (req : Request)
    (hnb : ∀ u p, basicAuthOf req = some (u, p) → u = "")
    (hbr : startsWithL (headerGet req.headers "Authorization").toList
      ("Bearer ".toList) = true) :
    GetClientID (some req) =
      ((GetClientIDFromBearerToken (String.mk
          (trimPfx (headerGet req.headers "Authorization").toList ("Bearer ".toList)))).1,
       some req,
       (GetClientIDFromBearerToken (String.mk
          (trimPfx (headerGet req.headers "Authorization").toList ("Bearer ".toList)))).2) := by
  rw [getClientID_eq_nonBasic req hnb]
  unfold getClientIDNonBasic
  rw [hbr]
  rfl

/-- Witness for C3: a malformed Bearer token yields `InvalidBearerTokenErr`
even though both the form body and the query string carry a valid
client_id. -/
theorem getClientID_bearer_short_circuit_witness :
    GetClientID (some badBearerReq) = ("", some badBearerReq, some GoErr.invalidBearerToken) := by
  have h := getClientID_bearer_short_circuit badBearerReq
    (fun u p hc => by rw [show basicAuthOf badBearerReq = none from rfl] at hc; cases hc)
    (by rfl)
  rw [h]
  rfl

/-- C5: the Bearer-token parser splits the token on '.'; if that yields
exactly two fields and the first is non-empty it returns the first field
with a nil error, and otherwise it returns "" with
`InvalidBearerTokenErr`. -/
theorem getClientIDFromBearerToken_spec (token : String) :
    (∀ a b, splitOnChar token.toList '.' = [a, b] → a ≠ [] →
        GetClientIDFromBearerToken token = (String.mk a, none)) ∧
    ((∀ a b, splitOnChar token.toList '.' = [a, b] → a = []) →
        GetClientIDFromBearerToken token = ("", some GoErr.invalidBearerToken)) := by
  constructor
  · intro a b h ha
    simp only [GetClientIDFromBearerToken, h]
    simp [ha]
  · intro h
    simp only [GetClientIDFromBearerToken]
    split
    · next a b heq => rw [if_pos (h a b heq)]
    · rfl

/-- Witness for C5: "abc.def" splits into two fields with a non-empty first
field and parses to "abc". -/
theorem getClientIDFromBearerToken_spec_witness :
    GetClientIDFromBearerToken "abc.def" = ("abc", none) :=
  (getClientIDFromBearerToken_spec "abc.def").1 "abc".toList "def".toList (by rfl) (by decide)

/-- C6: for every request (nil included), `GetClientID` returns either a
non-empty client_id with a nil error or the empty string with a non-nil
error; a successful result is never empty. -/
theorem getClientID_result_dichotomy (req? : Option Request) :
    ((GetClientID req?).1 ≠ "" ∧ (GetClientID req?).2.2 = none) ∨
    ((GetClientID req?).1 = "" ∧ (GetClientID req?).2.2 ≠ none) := by
  cases req? with
  | none => exact Or.inr ⟨rfl, by simp [GetClientID]⟩
  | some req =>
    rw [getClientID_some_eq]
    cases hba : basicAuthOf req with
    | none => exact nonBasic_dichotomy req
    | some up =>
      dsimp only
      split
      · next h => exact Or.inl ⟨h, rfl⟩
      · exact nonBasic_dichotomy req

/-- Witness for C6: the dichotomy instantiated at a concrete empty GET. -/
theorem getClientID_result_dichotomy_witness :
    ((GetClientID (some emptyGetReq)).1 ≠ "" ∧ (GetClientID (some emptyGetReq)).2.2 = none) ∨
    ((GetClientID (some emptyGetReq)).1 = "" ∧ (GetClientID (some emptyGetReq)).2.2 ≠ none) :=
  getClientID_result_dichotomy (some emptyGetReq)

/-- C7: for every non-nil request, the request returned by `GetClientID` has
the same method, headers, URL and content length as the input: the call
only ever rewrites the body stream and the cached `Form`/`PostForm`. -/
theorem getClientID_frame_preservation (req : Request) :
    frameMap req (GetClientID (some req)).2.1 := by
  rw [getClientID_some_eq]
  cases hba : basicAuthOf req with
  | none => exact nonBasic_frame req
  | some up =>
    dsimp only
    split
    · simp [frameMap]
    · exact nonBasic_frame req

/-- Witness for C7: frame preservation instantiated at a concrete form
POST. -/
theorem getClientID_frame_preservation_witness :
    frameMap basicAuthReq (GetClientID (some basicAuthReq)).2.1 :=
  getClientID_frame_preservation basicAuthReq

/-- C8: a GET request (fresh: form and PostForm not yet populated) without
Basic-Auth or a Bearer Authorization header whose query string parses
cleanly with client_id value X ≠ "" yields X with a nil error. -/
theorem getClientID_get_query (req : Request) (q x : String)
    (hm : req.method = "GET")
    (hnb : ∀ u p, basicAuthOf req = some (u, p) → u = "")
    (hbr : startsWithL (headerGet req.headers "Authorization").toList
      ("Bearer ".toList) = false)
    (hurl : req.url = some q)
    (hform : req.form = none) (hpf : req.postForm = none)
    (hqok : (parseQuery q).2 = none)
    (hx : valuesGet (parseQuery q).1 clientIDKey = x) (hxne : x ≠ "") :
    (GetClientID (some req)).1 = x ∧ (GetClientID (some req)).2.2 = none := by
  rw [getClientID_eq_nonBasic req hnb]
  unfold getClientIDNonBasic
  rw [hbr]
  rw [if_neg (by simp)]
  rw [if_neg (by rw [hm]; decide)]
  unfold getClientIDDefaultBranch
  rw [if_pos hform]
  have hpf1 : parseFormStep1 req = ({ req with postForm := some [] }, none) := by
    unfold parseFormStep1
    rw [if_pos hpf, if_neg (by rw [hm]; decide)]
  have hparse : Request.parseForm req =
      ({ req with postForm := some [], form := some ((parseQuery q).1) }, none) := by
    unfold Request.parseForm
    simp only [hpf1]
    simp [hform, hurl, hqok]
  rw [hparse]
  simp [formGetStep, hx, hxne]

/-- Witness for C8: `GET ?client_id=robbie` returns "robbie". -/
theorem getClientID_get_query_witness :
    (GetClientID (some getQueryReq)).1 = "robbie" ∧
    (GetClientID (some getQueryReq)).2.2 = none := by
  refine getClientID_get_query getQueryReq "client_id=robbie" "robbie" rfl ?_ rfl rfl rfl rfl rfl rfl (by decide)
  intro u p hc
  rw [show basicAuthOf getQueryReq = none from rfl] at hc
  cases hc

/-- C9: a fresh non-nil request with no Authorization header, no body, and
a URL whose query (if any) parses cleanly without a client_id, fails with
`MissingClientIDErr`, whatever the method. -/
theorem getClientID_missing (req : Request)
    (hauth : headerGet req.headers "Authorization" = "")
    (hbody : req.body = none)
    (hform : req.form = none) (hpf : req.postForm = none)
    (hq : match req.url with
          | some q => (parseQuery q).2 = none ∧ valuesGet (parseQuery q).1 clientIDKey = ""
          | none => True) :
    (GetClientID (some req)).1 = "" ∧
    (GetClientID (some req)).2.2 = some GoErr.missingClientID := by
  have hnb : ∀ u p, basicAuthOf req = some (u, p) → u = "" := by
    intro u p hc
    rw [basicAuthOf_none_of_no_auth req hauth] at hc
    cases hc
  rw [getClientID_eq_nonBasic req hnb]
  unfold getClientIDNonBasic
  rw [hauth]
  rw [if_neg (by decide)]
  by_cases hm : req.method = "POST" ∨ req.method = "PATCH" ∨ req.method = "PUT"
  · rw [if_pos hm]
    unfold getClientIDFormBranch
    by_cases hct : (parseMediaType (headerGet req.headers contentTypeHeaderKey)).1 = formContentType
    · rw [if_pos hct, hbody]
      exact ⟨rfl, rfl⟩
    · rw [if_neg hct]
      exact ⟨rfl, rfl⟩
  · rw [if_neg hm]
    unfold getClientIDDefaultBranch
    rw [if_pos hform]
    have hm2 : ¬(req.method = "POST" ∨ req.method = "PUT" ∨ req.method = "PATCH") := by
      tauto
    have hpf1 : parseFormStep1 req = ({ req with postForm := some [] }, none) := by
      unfold parseFormStep1
      rw [if_pos hpf, if_neg hm2]
    cases hu : req.url with
    | some q =>
      rw [hu] at hq
      obtain ⟨hq1, hq2⟩ := hq
      have hparse : Request.parseForm req =
          ({ req with postForm := some [], form := some ((parseQuery q).1) }, none) := by
        unfold Request.parseForm
        simp only [hpf1]
        simp [hform, hu, hq1]
      rw [hparse]
      simp [formGetStep, hq2]
    | none =>
      have hparse : Request.parseForm req =
          ({ req with postForm := some [], form := some ([] : Values) }, none) := by
        unfold Request.parseForm
        simp only [hpf1]
        simp [hform, hu]
      rw [hparse]
      simp [formGetStep, valuesGet]

/-- Witness for C9: an empty GET (no auth, no body, empty query) yields
`MissingClientIDErr`. -/
theorem getClientID_missing_witness :
    (GetClientID (some emptyGetReq)).1 = "" ∧
    (GetClientID (some emptyGetReq)).2.2 = some GoErr.missingClientID :=
  getClientID_missing emptyGetReq rfl rfl rfl rfl (by exact ⟨rfl, rfl⟩)

/-- C10: for a fresh POST/PUT/PATCH form request (urlencoded Content-Type,
cleanly parsing body with no client_id key at all) whose URL query parses
cleanly with client_id value X ≠ "", `GetClientID` returns X with a nil
error: `ParseForm` merges the URL query values into `Form` behind the body
values, so the body-less key falls through to the query. -/
theorem getClientID_post_query_merge (req : Request) (bs q x : String)
    (hm : req.method = "POST" ∨ req.method = "PATCH" ∨ req.method = "PUT")
    (hnb : ∀ u p, basicAuthOf req = some (u, p) → u = "")
    (hbr : startsWithL (headerGet req.headers "Authorization").toList
      ("Bearer ".toList) = false)
    (hct : headerGet req.headers contentTypeHeaderKey = "application/x-www-form-urlencoded")
    (hbody : req.body = some (Except.ok bs))
    (hform : req.form = none) (hpf : req.postForm = none)
    (hurl : req.url = some q)
    (hbsok : (parseQuery bs).2 = none)
    (hnoid : (parseQuery bs).1.find? (fun p => p.1 == clientIDKey) = none)
    (hqok : (parseQuery q).2 = none)
    (hx : valuesGet (parseQuery q).1 clientIDKey = x) (hxne : x ≠ "") :
    (GetClientID (some req)).1 = x ∧ (GetClientID (some req)).2.2 = none := by
  have hmedia : parseMediaType "application/x-www-form-urlencoded" = (formContentType, true) := rfl
  rw [getClientID_eq_nonBasic req hnb]
  unfold getClientIDNonBasic
  rw [hbr]
  rw [if_neg (by simp)]
  rw [if_pos hm]
  unfold getClientIDFormBranch
  rw [hct, hmedia, hbody]
  rw [if_pos rfl]
  dsimp only
  rw [if_pos hform]
  simp only [readAll]
  have hm2 : req.method = "POST" ∨ req.method = "PUT" ∨ req.method = "PATCH" := by
    tauto
  have hppf : parsePostForm { req with body := some (Except.ok bs) } =
      (some ((parseQuery bs).1), none, { req with body := some (Except.ok "") }) := by
    unfold parsePostForm
    simp only [readAll]
    simp +decide [hct, hmedia, hbsok]
  have hstep1 : parseFormStep1 { req with body := some (Except.ok bs) } =
      ({ req with body := some (Except.ok ""), postForm := some ((parseQuery bs).1) }, none) := by
    unfold parseFormStep1
    rw [if_pos (by simpa using hpf), if_pos (by simpa using hm2), hppf]
    rfl
  have hparse : Request.parseForm { req with body := some (Except.ok bs) } =
      ({ req with
          body := some (Except.ok ""),
          postForm := some ((parseQuery bs).1),
          form := some ((parseQuery bs).1 ++ (parseQuery q).1) }, none) := by
    unfold Request.parseForm
    simp only [hstep1]
    simp [hform, hurl, hqok]
  rw [hparse]
  have hv : valuesGet ((parseQuery bs).1 ++ (parseQuery q).1) clientIDKey = x := by
    rw [valuesGet_append_of_none _ _ _ hnoid, hx]
  simp [formGetStep, hv, hxne]

/-- Witness for C10: a PUT with body "other=1" and query
"?client_id=fromquery" returns "fromquery". -/
theorem getClientID_post_query_merge_witness :
    (GetClientID (some putMergeReq)).1 = "fromquery" ∧
    (GetClientID (some putMergeReq)).2.2 = none := by
  refine getClientID_post_query_merge putMergeReq "other=1" "client_id=fromquery" "fromquery"
    (by tauto) ?_ rfl rfl rfl rfl rfl rfl rfl (by decide) rfl rfl (by decide)
  intro u p hc
  rw [show basicAuthOf putMergeReq = none from rfl] at hc
  cases hc

/-- C1 (amended): for every fresh POST/PUT/PATCH form request that reaches
the body-consuming path and whose initial body read SUCCEEDS with bytes bs,
the request returned by `GetClientID` carries a body that reads bs from the
start — whether the form parse then succeeds, fails, or finds no client_id.
(The claim's extension to body-READ errors is refuted separately: on a read
failure the code returns without restoring the stream.) -/
theorem getClientID_body_restored (req : Request) (bs : String)
    (hm : req.method = "POST" ∨ req.method = "PATCH" ∨ req.method = "PUT")
    (hnb : ∀ u p, basicAuthOf req = some (u, p) → u = "")
    (hbr : startsWithL (headerGet req.headers "Authorization").toList
      ("Bearer ".toList) = false)
    (hct : (parseMediaType (headerGet req.headers contentTypeHeaderKey)).1 = formContentType)
    (hbody : req.body = some (Except.ok bs))
    (hform : req.form = none) :
    ((GetClientID (some req)).2.1).map Request.body = some (some (Except.ok bs)) := by
  rw [getClientID_eq_nonBasic req hnb]
  unfold getClientIDNonBasic
  rw [hbr]
  rw [if_neg (by simp)]
  rw [if_pos hm]
  unfold getClientIDFormBranch
  rw [if_pos hct, hbody]
  dsimp only
  rw [if_pos hform]
  simp only [readAll]
  rcases hp : Request.parseForm { req with body := some (Except.ok bs) } with ⟨req2, ferr⟩
  cases ferr with
  | some e => simp
  | none =>
    dsimp only
    rw [formGetStep_req]
    simp

/-- Witness for C1: a POST whose body "a=%zz" fails to parse as a form
still comes back with its body restored to exactly "a=%zz", alongside the
wrapped form-parse error. -/
theorem getClientID_body_restored_witness :
    ((GetClientID (some postBadFormReq)).2.1).map Request.body =
      some (some (Except.ok "a=%zz")) ∧
    (GetClientID (some postBadFormReq)).2.2 =
      some (GoErr.parseFormBody (FormErr.escapeError "%zz")) := by
  refine ⟨getClientID_body_restored postBadFormReq "a=%zz" (Or.inl rfl) ?_ rfl rfl rfl rfl, rfl⟩
  intro u p hc
  rw [show basicAuthOf postBadFormReq = none from rfl] at hc
  cases hc

/-- Counterexample for C1 as stated: when the body READ itself fails, the
code returns the wrapped read error with the request's body left as the
failed stream — reading it yields the error "boom" again, not the original
bytes, so the stream is not restored on this path (the claim demanded
restoration "including body-read errors"). -/
theorem getClientID_read_error_not_restored :
    GetClientID (some postReadErrReq) =
      ("", some postReadErrReq, some (GoErr.readBody "boom")) ∧
    postReadErrReq.body = some (Except.error "boom") := ⟨rfl, rfl⟩

/-- C4 (amended): for a fresh POST/PATCH/PUT request with no usable
Basic-Auth and no Bearer header, the body is consumed and `client_id`
looked up in the parsed body+query form exactly when `mime.ParseMediaType`
of the Content-Type yields the media type "application/x-www-form-urlencoded"
(case-insensitively, parameters stripped — NOT byte-equality of the header)
and the body is non-nil; otherwise the call returns `MissingClientIDErr`
with the request untouched. -/
theorem getClientID_form_branch_guard (req : Request)
    (hm : req.method = "POST" ∨ req.method = "PATCH" ∨ req.method = "PUT")
    (hnb : ∀ u p, basicAuthOf req = some (u, p) → u = "")
    (hbr : startsWithL (headerGet req.headers "Authorization").toList
      ("Bearer ".toList) = false)
    (hform : req.form = none) (hpf : req.postForm = none) :
    ((parseMediaType (headerGet req.headers contentTypeHeaderKey)).1 ≠ formContentType ∨
        req.body = none →
      GetClientID (some req) = ("", some req, some GoErr.missingClientID)) ∧
    (∀ bs, req.body = some (Except.ok bs) →
      parseMediaType (headerGet req.headers contentTypeHeaderKey) = (formContentType, true) →
      (parseQuery bs).2 = none →
      (∀ q, req.url = some q → (parseQuery q).2 = none) →
      GetClientID (some req) =
        (if valuesGet ((parseQuery bs).1 ++ urlVals req) clientIDKey ≠ "" then
           (valuesGet ((parseQuery bs).1 ++ urlVals req) clientIDKey,
            some { req with
                    body := some (Except.ok bs),
                    postForm := some ((parseQuery bs).1),
                    form := some ((parseQuery bs).1 ++ urlVals req) }, none)
         else ("",
               some { req with
                       body := some (Except.ok bs),
                       postForm := some ((parseQuery bs).1),
                       form := some ((parseQuery bs).1 ++ urlVals req) },
               some GoErr.missingClientID))) := by
  constructor
  · intro hneg
    rw [getClientID_eq_nonBasic req hnb]
    unfold getClientIDNonBasic
    rw [hbr]
    rw [if_neg (by simp)]
    rw [if_pos hm]
    unfold getClientIDFormBranch
    rcases hneg with hct | hb
    · rw [if_neg hct]
    · split
      · rw [hb]
      · rfl
  · intro bs hbody hmt hbsok hqall
    rw [getClientID_eq_nonBasic req hnb]
    unfold getClientIDNonBasic
    rw [hbr]
    rw [if_neg (by simp)]
    rw [if_pos hm]
    unfold getClientIDFormBranch
    rw [hmt, hbody]
    rw [if_pos rfl]
    dsimp only
    rw [if_pos hform]
    simp only [readAll]
    have hctne : headerGet req.headers contentTypeHeaderKey ≠ "" := by
      intro hc
      rw [hc] at hmt
      exact absurd (congrArg Prod.snd hmt) (by decide)
    have hm2 : req.method = "POST" ∨ req.method = "PUT" ∨ req.method = "PATCH" := by
      tauto
    have hppf : parsePostForm { req with body := some (Except.ok bs) } =
        (some ((parseQuery bs).1), none, { req with body := some (Except.ok "") }) := by
      unfold parsePostForm
      simp only [readAll]
      simp [hctne, hmt, hbsok]
    have hstep1 : parseFormStep1 { req with body := some (Except.ok bs) } =
        ({ req with body := some (Except.ok ""), postForm := some ((parseQuery bs).1) },
         none) := by
      unfold parseFormStep1
      rw [if_pos (by simpa using hpf), if_pos (by simpa using hm2), hppf]
      rfl
    have hparse : Request.parseForm { req with body := some (Except.ok bs) } =
        ({ req with
            body := some (Except.ok ""),
            postForm := some ((parseQuery bs).1),
            form := some ((parseQuery bs).1 ++ urlVals req) }, none) := by
      unfold Request.parseForm
      simp only [hstep1]
      cases hu : req.url with
      | some q => simp [hform, urlVals, hu, hqall q hu]
      | none => simp [hform, urlVals, hu]
    rw [hparse]
    dsimp only
    unfold formGetStep
    split
    · next h =>
      rw [if_pos (by simpa using h)]
      rfl
    · next h =>
      rw [if_neg (by simpa using h)]

/-- Witness for C4: a POST with Content-Type "text/plain" is answered with
`MissingClientIDErr` and an untouched request, although both its body and
its query string contain a client_id. -/
theorem getClientID_form_branch_guard_witness :
    GetClientID (some plainTextPostReq) =
      ("", some plainTextPostReq, some GoErr.missingClientID) := by
  have h := getClientID_form_branch_guard plainTextPostReq (by tauto)
    (fun u p hc => by rw [show basicAuthOf plainTextPostReq = none from rfl] at hc; cases hc)
    rfl rfl rfl
  exact h.1 (Or.inl (by decide))

/-- Counterexample for C4 as stated: the Content-Type header
"APPLICATION/X-WWW-FORM-URLENCODED" is not the exact string
"application/x-www-form-urlencoded", yet the body IS read and parsed and
the client_id "frombody" (present only in the body) is returned — so the
body-parsing condition is not byte-equality of the header. -/
theorem getClientID_form_ct_not_exact :
    headerGet upperCaseCTReq.headers contentTypeHeaderKey ≠ formContentType ∧
    GetClientID (some upperCaseCTReq) =
      ("frombody",
       some { upperCaseCTReq with
               postForm := some [("client_id", "frombody")],
               form := some [("client_id", "frombody")] },
       none) := ⟨by decide, by rfl⟩

end Restplay
